import Mathlib

/-!
Shallow embedding of the EV3 UART sensor-side protocol parser
(EV3UartProtocolParserSensorSide.cpp / .hpp) and proofs about it.

Machine bytes (`uint8_t`) are modelled as `Nat` with explicit `% 256`
wherever the C++ arithmetic can leave the 0..255 range.  The fixed
34-byte message buffer is modelled as a `List Nat`; writes use
`List.set`, which leaves the list unchanged on an out-of-range index
(such writes are proved not to occur in reachable states).
-/

set_option maxRecDepth 4000

namespace EV3UartGenerator

namespace Magics

/-- Modelled from the spec: the header-byte catalog collaborator
(`magics.hpp` of the EV3UartGenerator library is not part of this
repository).  Base value of SYS-class header bytes in the EV3 UART
protocol. -/
def SYS.SYS_BASE : Nat := 0x00

/-- Modelled from the spec: SYS subtype code for ACK. -/
def SYS.ACK : Nat := 0x04

/-- Modelled from the spec: SYS subtype code for NACK. -/
def SYS.NACK : Nat := 0x02

/-- Modelled from the spec: base value of CMD-class header bytes
(type field, bits 6-7). -/
def CMD.CMD_BASE : Nat := 0x40

/-- Modelled from the spec: CMD subtype code for SELECT. -/
def CMD.SELECT : Nat := 0x03

/-- Modelled from the spec: CMD subtype code for WRITE. -/
def CMD.WRITE : Nat := 0x04

end Magics

namespace Framing

/-- Modelled from the spec: the minimum buffer capacity collaborator
(`framing.hpp` is not part of this repository); the spec fixes it as
1 header + 32 max payload + 1 checksum = 34 bytes. -/
def BUFFER_MIN : Nat := 34

/-- Modelled from the spec: the Checksum collaborator
`Framing::checksum(buf, len)`; the algorithm itself is external to the
repository (the EV3 UART FCS: 0xFF xor-ed with each of the first `len`
buffer bytes), the core only fixes which bytes feed it. -/
def checksum (buf : List Nat) (len : Nat) : Nat :=
  (buf.take len).foldl (fun a b => (a ^^^ b) % 256) 0xff

end Framing

end EV3UartGenerator

namespace EV3UartProtocolParserSensorSide

open EV3UartGenerator

/-- `BUFFER_LEN`: length of the internal message buffer. -/
def BUFFER_LEN : Nat := Framing.BUFFER_MIN

/-- `two_pow(val)`: `(uint8_t)(0x01 << val)`. -/
def two_pow (val : Nat) : Nat := (1 <<< val) % 256

/-- Numeric value of `State::STATE_START`. -/
def State.STATE_START : Nat := 0

/-- Numeric value of `State::WAIT_HEADER`. -/
def State.WAIT_HEADER : Nat := 0

/-- Numeric value of `State::WAIT_CHECKSUM`. -/
def State.WAIT_CHECKSUM : Nat := 1

/-- Numeric value of `State::STATE_END`. -/
def State.STATE_END : Nat := 1

/-- `next_state(st)`: advance the state value, wrapping to
`STATE_START` after `STATE_END`. -/
def next_state (st : Nat) : Nat :=
  if st ≠ State.STATE_END then (st + 1) % 256 else State.STATE_START

/-- `enum class ParseResult`. -/
inductive ParseResult : Type where
  | INSUFFICIENT_DATA
  | RECEIVED_INVALID_HEADER
  | RECEIVED_SYS_ACK
  | RECEIVED_SYS_NACK
  | RECEIVED_CMD_SELECT
  | RECEIVED_CMD_WRITE
  | RECEIVED_CMD_INVALID_FCS
deriving DecidableEq

/-- `struct ParserReturn`.  `ParserReturn rtn { }` zero-initialises the
structure, so the default values are `INSUFFICIENT_DATA` (enumerator 0),
`hdr = 0`, `len = 0`. -/
structure ParserReturn : Type where
  res : ParseResult
  hdr : Nat
  len : Nat
deriving DecidableEq

/-- `struct Parser::HeaderInformation`. -/
structure HeaderInformation : Type where
  header_valid : Bool
  header_sanitized : Nat
  payload_length : Nat
deriving DecidableEq

/-- `class Parser`: the mutable parser state.  The C++ member functions
become functions from `Parser` to `Parser` (and a result). -/
structure Parser : Type where
  buffer : List Nat
  message_payload_length : Nat
  message_pending_bytes : Nat
  current_state : Nat
deriving DecidableEq

/-- A freshly constructed `Parser { }`: counters zero, state
`STATE_START`.  The C++ buffer is uninitialised; it is modelled as
all zeroes (no reachable read observes the initial contents). -/
def Parser.init : Parser :=
  { buffer := List.replicate BUFFER_LEN 0
    message_payload_length := 0
    message_pending_bytes := 0
    current_state := State.STATE_START }

/-- `Parser::payload_length(hdr)`: decode the 3-bit length code from
bits 3-5 of the header byte. -/
def Parser.payload_length (hdr : Nat) : Nat :=
  two_pow ((hdr >>> 0x03) &&& 0x07)

/-- `Parser::analyze_header(hdr)`: classify one header byte against
the fixed catalog.  The C++ `switch` on `header_sanitized` becomes a
chain of equality tests against the four recognised class values. -/
def Parser.analyze_header (hdr : Nat) : HeaderInformation :=
  let info : HeaderInformation := ⟨false, hdr &&& 0xc7, 0x00⟩
  let payload_len_code : Nat := (hdr >>> 0x03) &&& 0x07
  if info.header_sanitized = (Magics.SYS.SYS_BASE ||| Magics.SYS.ACK) then
    if payload_len_code = 0 then { info with header_valid := true } else info
  else if info.header_sanitized = (Magics.SYS.SYS_BASE ||| Magics.SYS.NACK) then
    if payload_len_code = 0 then { info with header_valid := true } else info
  else if info.header_sanitized = (Magics.CMD.CMD_BASE ||| Magics.CMD.SELECT) then
    if payload_len_code = 0 then
      { info with header_valid := true
                  payload_length := Parser.payload_length hdr }
    else info
  else if info.header_sanitized = (Magics.CMD.CMD_BASE ||| Magics.CMD.WRITE) then
    if payload_len_code < 6 then
      { info with header_valid := true
                  payload_length := Parser.payload_length hdr }
    else info
  else info

/-- The `write_index` computed in the `WAIT_CHECKSUM` arm of
`Parser::update`: `(uint8_t)(((message_payload_length + 1) -
message_pending_bytes) + 1)`, where the subtraction happens after the
usual integer promotion and the result is truncated back to a byte
(hence the `+ 256` and `% 256`, exact for the byte-sized fields). -/
def Parser.write_index (p : Parser) : Nat :=
  ((p.message_payload_length + 1 + 256) - p.message_pending_bytes + 1) % 256

/-- `Parser::update(input)`: consume one byte, returning the updated
parser together with the `ParserReturn` value.  The trailing
`rtn.hdr = buffer[0]` of the C++ code is inlined into each arm (as
`hdr := buf.getD 0 0` on the updated buffer). -/
def Parser.update (p : Parser) (input : Nat) : Parser × ParserReturn :=
  match p.current_state with
  | 0 =>
    let info := Parser.analyze_header input
    let buf := p.buffer.set 0 input
    if info.header_valid then
      if 0 < info.payload_length then
        -- CMD header: set up byte counters, advance state
        ({ p with buffer := buf
                  message_payload_length := info.payload_length
                  message_pending_bytes := (info.payload_length + 0x01) % 256
                  current_state := next_state p.current_state },
         { res := ParseResult.INSUFFICIENT_DATA, hdr := buf.getD 0 0, len := 0 })
      else
        -- SYS header: translate and return, no state advance
        ({ p with buffer := buf },
         { res :=
             if info.header_sanitized &&& 0x07 = Magics.SYS.NACK then
               ParseResult.RECEIVED_SYS_NACK
             else if info.header_sanitized &&& 0x07 = Magics.SYS.ACK then
               ParseResult.RECEIVED_SYS_ACK
             else ParseResult.INSUFFICIENT_DATA
           hdr := buf.getD 0 0, len := 0 })
    else
      ({ p with buffer := buf },
       { res := ParseResult.RECEIVED_INVALID_HEADER, hdr := buf.getD 0 0, len := 0 })
  | 1 =>
    let buf := p.buffer.set p.write_index input
    let pending := (p.message_pending_bytes + 255) % 256
    if pending ≠ 0 then
      ({ p with buffer := buf, message_pending_bytes := pending },
       { res := ParseResult.INSUFFICIENT_DATA, hdr := buf.getD 0 0, len := 0 })
    else
      ({ p with buffer := buf
                message_pending_bytes := pending
                current_state := next_state p.current_state },
       { res :=
           if Framing.checksum buf (p.message_payload_length + 1)
               ≠ buf.getD p.write_index 0 then
             ParseResult.RECEIVED_CMD_INVALID_FCS
           else if buf.getD 0 0 &&& 0x07 = Magics.CMD.SELECT then
             ParseResult.RECEIVED_CMD_SELECT
           else if buf.getD 0 0 &&& 0x07 = Magics.CMD.WRITE then
             ParseResult.RECEIVED_CMD_WRITE
           else ParseResult.INSUFFICIENT_DATA
         hdr := buf.getD 0 0, len := p.message_payload_length })
  | _ =>
    (p, { res := ParseResult.INSUFFICIENT_DATA, hdr := p.buffer.getD 0 0, len := 0 })

/-- `Parser::data()`: the payload view, aliasing the buffer from
index 1 onward. -/
def Parser.data (p : Parser) : List Nat := p.buffer.drop 1

/-- `Parser::reset_state()`: unconditionally force the state back to
`STATE_START`; counters and buffer are untouched. -/
def Parser.reset_state (p : Parser) : Parser :=
  { p with current_state := State.STATE_START }

/-- Feed a list of bytes one by one, collecting every `ParserReturn`. -/
def runBytes (p : Parser) (bs : List Nat) : Parser × List ParserReturn :=
  match bs with
  | [] => (p, [])
  | b :: rest =>
    let step := p.update b
    let tail := runBytes step.1 rest
    (tail.1, step.2 :: tail.2)

/-- The header catalog exactly as the claims state it: SYS|ACK or
SYS|NACK with length code 0, CMD|SELECT with length code 0, or
CMD|WRITE with length code 0..5, the length code being bits 3-5 and
the class the byte with those bits cleared. -/
def headerCatalog (b : Nat) : Prop :=
  ((b &&& 0xc7 = (Magics.SYS.SYS_BASE ||| Magics.SYS.ACK)
      ∨ b &&& 0xc7 = (Magics.SYS.SYS_BASE ||| Magics.SYS.NACK))
     ∧ (b >>> 3) &&& 0x07 = 0)
  ∨ (b &&& 0xc7 = (Magics.CMD.CMD_BASE ||| Magics.CMD.SELECT)
     ∧ (b >>> 3) &&& 0x07 = 0)
  ∨ (b &&& 0xc7 = (Magics.CMD.CMD_BASE ||| Magics.CMD.WRITE)
     ∧ (b >>> 3) &&& 0x07 ≤ 5)

instance (b : Nat) : Decidable (headerCatalog b) := by
  unfold headerCatalog; infer_instance

/-- Well-formedness invariant of reachable parser states: the buffer
keeps its 34-byte length, and in `WAIT_CHECKSUM` the counters are in
range and buffer slot 0 holds an accepted CMD header. -/
def Parser.inv (p : Parser) : Prop :=
  p.buffer.length = BUFFER_LEN ∧
  (p.current_state = State.WAIT_HEADER ∨
    (p.current_state = State.WAIT_CHECKSUM ∧
     1 ≤ p.message_pending_bytes ∧
     p.message_pending_bytes ≤ p.message_payload_length + 1 ∧
     p.message_payload_length ≤ 32 ∧
     (p.buffer.getD 0 0 &&& 0x07 = Magics.CMD.SELECT
        ∨ p.buffer.getD 0 0 &&& 0x07 = Magics.CMD.WRITE)))

/-- Parser states reachable from a freshly constructed parser through
byte updates (bytes, hence `< 256`) and resets. -/
inductive Reachable : Parser → Prop where
  | init : Reachable Parser.init
  | update {p : Parser} {b : Nat} :
      Reachable p → b < 256 → Reachable (p.update b).1
  | reset {p : Parser} : Reachable p → Reachable p.reset_state

/-- A complete well-formed frame as a byte list: either a single valid
SYS (zero payload) header byte, or a valid CMD header followed by its
payload and the matching checksum byte. -/
def WellFormedFrame (bs : List Nat) : Prop :=
  (∃ s, bs = [s] ∧ s < 256
     ∧ (Parser.analyze_header s).header_valid = true
     ∧ (Parser.analyze_header s).payload_length = 0)
  ∨ (∃ h ps, bs = h :: (ps ++ [Framing.checksum (h :: ps) (ps.length + 1)])
     ∧ h < 256 ∧ (Parser.analyze_header h).header_valid = true
     ∧ (Parser.analyze_header h).payload_length = ps.length ∧ 0 < ps.length)

end EV3UartProtocolParserSensorSide
namespace EV3UartProtocolParserSensorSide
open EV3UartGenerator

theorem analyze_valid_iff_catalog :
    ∀ b : Fin 256,
      ((Parser.analyze_header b.val).header_valid = true ↔ headerCatalog b.val) := by
  decide

theorem analyze_accepted_shape :
    ∀ b : Fin 256,
      (Parser.analyze_header b.val).header_valid = true →
        (Parser.analyze_header b.val).payload_length ≤ 32
        ∧ (0 < (Parser.analyze_header b.val).payload_length →
            (b.val &&& 0x07 = Magics.CMD.SELECT
               ∧ (Parser.analyze_header b.val).payload_length = 1)
            ∨ b.val &&& 0x07 = Magics.CMD.WRITE)
        ∧ ((Parser.analyze_header b.val).payload_length = 0 →
            b.val &&& 0xc7 = (Magics.SYS.SYS_BASE ||| Magics.SYS.ACK)
            ∨ b.val &&& 0xc7 = (Magics.SYS.SYS_BASE ||| Magics.SYS.NACK)) := by
  decide

theorem analyze_sanitized (b : Nat) :
    (Parser.analyze_header b).header_sanitized = b &&& 0xc7 := by
  dsimp only [Parser.analyze_header]
  split_ifs <;> rfl

theorem update_header_invalid (p : Parser) (b : Nat)
    (hst : p.current_state = State.WAIT_HEADER)
    (hv : (Parser.analyze_header b).header_valid = false) :
    p.update b = ({ p with buffer := p.buffer.set 0 b },
      { res := ParseResult.RECEIVED_INVALID_HEADER,
        hdr := (p.buffer.set 0 b).getD 0 0, len := 0 }) := by
  simp only [Parser.update, State.WAIT_HEADER] at hst ⊢
  rw [hst]
  simp [hv]

theorem update_header_cmd (p : Parser) (b : Nat)
    (hst : p.current_state = State.WAIT_HEADER)
    (hv : (Parser.analyze_header b).header_valid = true)
    (hpl : 0 < (Parser.analyze_header b).payload_length) :
    p.update b = ({ p with
                    buffer := p.buffer.set 0 b,
                    message_payload_length := (Parser.analyze_header b).payload_length,
                    message_pending_bytes :=
                      ((Parser.analyze_header b).payload_length + 1) % 256,
                    current_state := State.WAIT_CHECKSUM },
      { res := ParseResult.INSUFFICIENT_DATA,
        hdr := (p.buffer.set 0 b).getD 0 0, len := 0 }) := by
  simp only [Parser.update, State.WAIT_HEADER] at hst ⊢
  rw [hst]
  simp [hv, hpl, next_state, State.STATE_END, State.WAIT_CHECKSUM, State.STATE_START]

theorem update_header_sys (p : Parser) (b : Nat)
    (hst : p.current_state = State.WAIT_HEADER)
    (hv : (Parser.analyze_header b).header_valid = true)
    (hpl : (Parser.analyze_header b).payload_length = 0) :
    p.update b = ({ p with buffer := p.buffer.set 0 b },
      { res := if (b &&& 0xc7) &&& 0x07 = Magics.SYS.NACK then
                 ParseResult.RECEIVED_SYS_NACK
               else if (b &&& 0xc7) &&& 0x07 = Magics.SYS.ACK then
                 ParseResult.RECEIVED_SYS_ACK
               else ParseResult.INSUFFICIENT_DATA,
        hdr := (p.buffer.set 0 b).getD 0 0, len := 0 }) := by
  simp only [Parser.update, State.WAIT_HEADER] at hst ⊢
  rw [hst]
  simp [hv, hpl, analyze_sanitized]

end EV3UartProtocolParserSensorSide

namespace EV3UartProtocolParserSensorSide
open EV3UartGenerator

theorem update_checksum_mid (p : Parser) (b : Nat)
    (hst : p.current_state = State.WAIT_CHECKSUM)
    (hpend : (p.message_pending_bytes + 255) % 256 ≠ 0) :
    p.update b = ({ p with
                    buffer := p.buffer.set p.write_index b,
                    message_pending_bytes := (p.message_pending_bytes + 255) % 256 },
      { res := ParseResult.INSUFFICIENT_DATA,
        hdr := (p.buffer.set p.write_index b).getD 0 0, len := 0 }) := by
  simp only [Parser.update, State.WAIT_CHECKSUM] at hst ⊢
  rw [hst]
  simp [hpend]

theorem update_checksum_fin (p : Parser) (b : Nat)
    (hst : p.current_state = State.WAIT_CHECKSUM)
    (hpend : (p.message_pending_bytes + 255) % 256 = 0) :
    p.update b = ({ p with
                    buffer := p.buffer.set p.write_index b,
                    message_pending_bytes := 0,
                    current_state := State.WAIT_HEADER },
      { res := if Framing.checksum (p.buffer.set p.write_index b)
                    (p.message_payload_length + 1)
                  ≠ (p.buffer.set p.write_index b).getD p.write_index 0 then
                 ParseResult.RECEIVED_CMD_INVALID_FCS
               else if (p.buffer.set p.write_index b).getD 0 0 &&& 0x07
                   = Magics.CMD.SELECT then
                 ParseResult.RECEIVED_CMD_SELECT
               else if (p.buffer.set p.write_index b).getD 0 0 &&& 0x07
                   = Magics.CMD.WRITE then
                 ParseResult.RECEIVED_CMD_WRITE
               else ParseResult.INSUFFICIENT_DATA,
        hdr := (p.buffer.set p.write_index b).getD 0 0,
        len := p.message_payload_length }) := by
  simp only [Parser.update, State.WAIT_CHECKSUM] at hst ⊢
  rw [hst]
  simp [hpend, next_state, State.STATE_END, State.STATE_START, State.WAIT_HEADER]

theorem write_index_eq (p : Parser)
    (h1 : 1 ≤ p.message_pending_bytes)
    (h2 : p.message_pending_bytes ≤ p.message_payload_length + 1)
    (h3 : p.message_payload_length ≤ 32) :
    p.write_index = p.message_payload_length + 2 - p.message_pending_bytes := by
  unfold Parser.write_index
  omega

theorem run_payload :
    ∀ (bs : List Nat) (p : Parser) (h : Nat) (mid rest : List Nat),
      p.current_state = State.WAIT_CHECKSUM →
      p.buffer = h :: (mid ++ rest) →
      mid.length + 1 = p.message_payload_length + 2 - p.message_pending_bytes →
      bs.length < p.message_pending_bytes →
      p.message_pending_bytes ≤ p.message_payload_length + 1 →
      p.message_payload_length ≤ 32 →
      bs.length ≤ rest.length →
      (runBytes p bs).1.buffer = h :: ((mid ++ bs) ++ rest.drop bs.length)
      ∧ (runBytes p bs).1.message_payload_length = p.message_payload_length
      ∧ (runBytes p bs).1.message_pending_bytes
          = p.message_pending_bytes - bs.length
      ∧ (runBytes p bs).1.current_state = State.WAIT_CHECKSUM
      ∧ (runBytes p bs).2 = List.replicate bs.length
          { res := ParseResult.INSUFFICIENT_DATA, hdr := h, len := 0 } := by
  intro bs
  induction bs with
  | nil =>
    intro p h mid rest hst hbuf hfront hcnt hpend hpl hrest
    simp [runBytes, hbuf, hst]
  | cons b bs ih =>
    intro p h mid rest hst hbuf hfront hcnt hpend hpl hrest
    have hplen : p.message_pending_bytes ≤ 33 := by omega
    have hge2 : 2 ≤ p.message_pending_bytes := by
      simp only [List.length_cons] at hcnt; omega
    have hmid : (p.update b).1.buffer.length = p.buffer.length := by
      rw [update_checksum_mid p b hst (by omega)]
      simp [List.length_set]
    -- rest is nonempty
    cases rest with
    | nil => simp at hrest
    | cons r rest' =>
    have hwi : p.write_index = mid.length + 1 := by
      rw [write_index_eq p (by omega) hpend hpl]; omega
    have hchar := update_checksum_mid p b hst (by omega)
    have hbuf' : (p.update b).1.buffer = h :: ((mid ++ [b]) ++ rest') := by
      rw [hchar]
      simp only [hbuf, hwi]
      rw [show (h :: (mid ++ r :: rest')).set (mid.length + 1) b
            = h :: ((mid ++ r :: rest').set mid.length b) from rfl]
      rw [show mid.length = mid.length + 0 from rfl, List.set_append]
      simp
    have hstep := ih (p.update b).1 h (mid ++ [b]) rest'
      (by rw [hchar]; simpa using hst) hbuf'
      (by rw [hchar]; simp only [List.length_append, List.length_cons] at hfront ⊢
          simp; omega)
      (by rw [hchar]; simp only [List.length_cons] at hcnt; simp; omega)
      (by rw [hchar]; simp; omega)
      (by rw [hchar]; simpa using hpl)
      (by simp only [List.length_cons] at hrest; omega)
    simp only [runBytes]
    refine ⟨?_, ?_, ?_, ?_, ?_⟩
    · rw [hstep.1]
      simp [List.append_assoc]
    · rw [hstep.2.1, hchar]
    · rw [hstep.2.2.1, hchar]
      simp only [List.length_cons]
      omega
    · exact hstep.2.2.2.1
    · rw [hstep.2.2.2.2, hchar]
      simp only [List.length_cons, List.replicate_succ]
      congr 1
      simp [hbuf, hwi, List.getD]

end EV3UartProtocolParserSensorSide

namespace EV3UartProtocolParserSensorSide
open EV3UartGenerator

theorem runBytes_append :
    ∀ (xs : List Nat) (p : Parser) (ys : List Nat),
      (runBytes p (xs ++ ys)).1 = (runBytes (runBytes p xs).1 ys).1
      ∧ (runBytes p (xs ++ ys)).2
          = (runBytes p xs).2 ++ (runBytes (runBytes p xs).1 ys).2 := by
  intro xs
  induction xs with
  | nil => intro p ys; simp [runBytes]
  | cons x xs ih =>
    intro p ys
    simp only [List.cons_append, runBytes, List.append_eq]
    refine ⟨(ih (p.update x).1 ys).1, ?_⟩
    rw [(ih (p.update x).1 ys).2]

theorem getD_append_len (l1 : List Nat) (x : Nat) (l2 : List Nat) :
    (l1 ++ x :: l2).getD l1.length 0 = x := by
  induction l1 with
  | nil => simp [List.getD_cons_zero]
  | cons a l1 ih => simpa [List.getD_cons_succ] using ih

theorem run_cmd_frame (p : Parser) (h c : Nat) (ps : List Nat)
    (hst : p.current_state = State.WAIT_HEADER)
    (hlen : p.buffer.length = BUFFER_LEN)
    (hh : h < 256)
    (hv : (Parser.analyze_header h).header_valid = true)
    (hL : (Parser.analyze_header h).payload_length = ps.length)
    (hpos : 0 < ps.length) :
    (runBytes p (h :: (ps ++ [c]))).2
      = List.replicate (ps.length + 1)
          { res := ParseResult.INSUFFICIENT_DATA, hdr := h, len := 0 }
        ++ [{ res := if Framing.checksum (h :: ps) (ps.length + 1) ≠ c then
                       ParseResult.RECEIVED_CMD_INVALID_FCS
                     else if h &&& 0x07 = Magics.CMD.SELECT then
                       ParseResult.RECEIVED_CMD_SELECT
                     else if h &&& 0x07 = Magics.CMD.WRITE then
                       ParseResult.RECEIVED_CMD_WRITE
                     else ParseResult.INSUFFICIENT_DATA,
              hdr := h, len := ps.length }]
    ∧ (runBytes p (h :: (ps ++ [c]))).1.buffer
        = h :: (ps ++ c :: p.buffer.tail.drop (ps.length + 1))
    ∧ (runBytes p (h :: (ps ++ [c]))).1.current_state = State.WAIT_HEADER
    ∧ (runBytes p (h :: (ps ++ [c]))).1.message_payload_length = ps.length
    ∧ (runBytes p (h :: (ps ++ [c]))).1.buffer.length = BUFFER_LEN := by
  have hL32 : ps.length ≤ 32 := by
    have := (analyze_accepted_shape ⟨h, hh⟩ hv).1
    simp only [hL] at this
    exact this
  -- the buffer is nonempty
  cases hbufeq : p.buffer with
  | nil => rw [hbufeq] at hlen; simp [BUFFER_LEN, Framing.BUFFER_MIN] at hlen
  | cons b0 t =>
  have htlen : t.length = 33 := by
    rw [hbufeq] at hlen
    simp [BUFFER_LEN, Framing.BUFFER_MIN] at hlen
    omega
  -- step 1: the header byte
  have hchar := update_header_cmd p h hst hv (by omega)
  have hp1buf : (p.update h).1.buffer = h :: t := by
    rw [hchar]; simp [hbufeq]
  have hmod : (ps.length + 1) % 256 = ps.length + 1 := Nat.mod_eq_of_lt (by omega)
  -- step 2: the payload bytes
  have hpay := run_payload ps (p.update h).1 h [] t
    (by rw [hchar]) (by simpa using hp1buf)
    (by rw [hchar]; simp [hL, hmod])
    (by rw [hchar]; simp [hL, hmod])
    (by rw [hchar]; simp [hL, hmod])
    (by rw [hchar]; simp [hL]; omega)
    (by omega)
  set p2 := (runBytes (p.update h).1 ps).1 with hp2
  -- step 3: the checksum byte
  have hdnn : t.drop ps.length ≠ [] := by
    have : (t.drop ps.length).length = 33 - ps.length := by simp [htlen]
    intro hcon
    rw [hcon] at this
    simp at this
    omega
  obtain ⟨d, drest, hdrest⟩ : ∃ d drest, t.drop ps.length = d :: drest := by
    cases hq : t.drop ps.length with
    | nil => exact absurd hq hdnn
    | cons d drest => exact ⟨d, drest, rfl⟩
  have hdrest' : drest = t.drop (ps.length + 1) := by
    have h2 : (t.drop ps.length).tail = t.drop (ps.length + 1) := by
      rw [List.tail_drop]
    rw [hdrest] at h2
    simpa using h2
  have hwi2 : p2.write_index = ps.length + 1 := by
    rw [write_index_eq p2 (by rw [hpay.2.2.1, hchar]; simp [hL, hmod])
      (by rw [hpay.2.2.1, hpay.2.1, hchar]; simp [hL, hmod])
      (by rw [hpay.2.1, hchar]; simp [hL]; omega)]
    rw [hpay.2.2.1, hpay.2.1, hchar]
    simp [hL, hmod]
  have hfin := update_checksum_fin p2 c hpay.2.2.2.1
    (by rw [hpay.2.2.1, hchar]; simp [hL, hmod])
  have hp2buf : p2.buffer = h :: (ps ++ d :: drest) := by
    rw [hpay.1]
    simp [hdrest]
  have hsetbuf : p2.buffer.set p2.write_index c = h :: (ps ++ c :: drest) := by
    rw [hp2buf, hwi2]
    rw [show (h :: (ps ++ d :: drest)).set (ps.length + 1) c
          = h :: ((ps ++ d :: drest).set ps.length c) from rfl]
    rw [show ps.length = ps.length + 0 from rfl, List.set_append]
    simp
  have hget0 : (p2.buffer.set p2.write_index c).getD 0 0 = h := by
    rw [hsetbuf]; rfl
  have hgetwi : (p2.buffer.set p2.write_index c).getD p2.write_index 0 = c := by
    rw [hsetbuf, hwi2]
    rw [List.getD_cons_succ]
    exact getD_append_len ps c drest
  have hchk : Framing.checksum (p2.buffer.set p2.write_index c)
      (p2.message_payload_length + 1) = Framing.checksum (h :: ps) (ps.length + 1) := by
    rw [hsetbuf, hpay.2.1, hchar]
    simp only [Framing.checksum, hL]
    congr 1
    rw [show (h :: (ps ++ c :: drest)).take (ps.length + 1)
          = h :: ((ps ++ c :: drest).take ps.length) from rfl]
    rw [show ps.length = ps.length + 0 from rfl, List.take_append]
    simp
  -- assemble
  have hsplit := runBytes_append ps (p.update h).1 [c]
  have hrun1 : runBytes p2 [c] = ((p2.update c).1, [(p2.update c).2]) := by
    simp [runBytes]
  constructor
  · show (runBytes p (h :: (ps ++ [c]))).2 = _
    simp only [runBytes]
    rw [hsplit.2, hrun1, hpay.2.2.2.2, hfin]
    simp only [hget0, hgetwi, hchk]
    rw [hchar]
    simp only [hbufeq]
    simp [hpay.2.1, hchar, hL, List.replicate_succ]
  · refine ⟨?_, ?_, ?_, ?_⟩
    · simp only [runBytes]
      rw [hsplit.1, hrun1]
      simp only [hfin]
      rw [hsetbuf]
      simp [hbufeq, hdrest']
    · simp only [runBytes]
      rw [hsplit.1, hrun1]
      simp [hfin]
    · simp only [runBytes]
      rw [hsplit.1, hrun1]
      simp only [hfin]
      simp [hpay.2.1, hchar, hL]
    · simp only [runBytes]
      rw [hsplit.1, hrun1]
      simp only [hfin]
      rw [hsetbuf]
      simp only [List.length_cons, List.length_append]
      rw [hdrest']
      simp [htlen, BUFFER_LEN, Framing.BUFFER_MIN]
      omega

end EV3UartProtocolParserSensorSide

namespace EV3UartProtocolParserSensorSide
open EV3UartGenerator

theorem getD_zero_set_ne (l : List Nat) (n a d : Nat) (h : n ≠ 0) :
    (l.set n a).getD 0 d = l.getD 0 d := by
  simp [List.getD, List.getElem?_set, h]

theorem update_buffer_length (p : Parser) (b : Nat) :
    (p.update b).1.buffer.length = p.buffer.length := by
  unfold Parser.update
  cases hcs : p.current_state with
  | zero => dsimp only; split_ifs <;> simp
  | succ n =>
    cases n with
    | zero => dsimp only; split_ifs <;> simp
    | succ m => rfl

theorem runBytes_buffer_length :
    ∀ (bs : List Nat) (p : Parser),
      (runBytes p bs).1.buffer.length = p.buffer.length := by
  intro bs
  induction bs with
  | nil => intro p; rfl
  | cons b bs ih =>
    intro p
    simp only [runBytes]
    rw [ih, update_buffer_length]

theorem inv_init : Parser.init.inv := by
  constructor
  · simp [Parser.init, BUFFER_LEN]
  · left; rfl

theorem inv_reset (p : Parser) (hp : p.inv) : p.reset_state.inv := by
  exact ⟨hp.1, Or.inl rfl⟩

theorem inv_update (p : Parser) (b : Nat) (hp : p.inv) (hb : b < 256) :
    (p.update b).1.inv := by
  obtain ⟨hlen, hstate⟩ := hp
  have hpos : 0 < p.buffer.length := by
    rw [hlen]; simp [BUFFER_LEN, Framing.BUFFER_MIN]
  rcases hstate with hst | ⟨hst, hpend1, hpend2, hpl, hsub⟩
  · -- WAIT_HEADER
    by_cases hv : (Parser.analyze_header b).header_valid = true
    · by_cases hpl : 0 < (Parser.analyze_header b).payload_length
      · rw [update_header_cmd p b hst hv hpl]
        have hshape : (b &&& 0x07 = Magics.CMD.SELECT
              ∧ (Parser.analyze_header b).payload_length = 1)
            ∨ b &&& 0x07 = Magics.CMD.WRITE :=
          (analyze_accepted_shape ⟨b, hb⟩ hv).2.1 hpl
        have hle : (Parser.analyze_header b).payload_length ≤ 32 :=
          (analyze_accepted_shape ⟨b, hb⟩ hv).1
        refine ⟨by simpa using hlen, Or.inr ⟨rfl, ?_, ?_, hle, ?_⟩⟩
        · simp only
          rw [Nat.mod_eq_of_lt (by omega)]
          omega
        · simp only
          rw [Nat.mod_eq_of_lt (by omega)]
        · simp only
          have : (p.buffer.set 0 b).getD 0 0 = b := by
            simp [List.getD, List.getElem?_set, hpos]
          rw [this]
          rcases hshape with ⟨h3, _⟩ | h4
          · exact Or.inl h3
          · exact Or.inr h4
      · rw [update_header_sys p b hst hv (by omega)]
        exact ⟨by simpa using hlen, Or.inl hst⟩
    · rw [update_header_invalid p b hst (by simpa using hv)]
      exact ⟨by simpa using hlen, Or.inl hst⟩
  · -- WAIT_CHECKSUM
    have hp255 : p.message_pending_bytes ≤ 33 := by omega
    by_cases hz : (p.message_pending_bytes + 255) % 256 = 0
    · rw [update_checksum_fin p b hst hz]
      exact ⟨by simpa using hlen, Or.inl rfl⟩
    · rw [update_checksum_mid p b hst hz]
      have hwi : p.write_index ≠ 0 := by
        rw [write_index_eq p hpend1 hpend2 hpl]
        omega
      refine ⟨by simpa using hlen, Or.inr ⟨hst, ?_, ?_, hpl, ?_⟩⟩
      · simp only; omega
      · simp only; omega
      · simp only
        rw [getD_zero_set_ne _ _ _ _ hwi]
        exact hsub

theorem reachable_inv (p : Parser) (hr : Reachable p) : p.inv := by
  induction hr with
  | init => exact inv_init
  | update hr hb ih => exact inv_update _ _ ih hb
  | reset hr ih => exact inv_reset _ ih

end EV3UartProtocolParserSensorSide

namespace EV3UartProtocolParserSensorSide
open EV3UartGenerator

theorem analyze_valid_iff_catalog_nat (b : Nat) (hb : b < 256) :
    ((Parser.analyze_header b).header_valid = true ↔ headerCatalog b) :=
  analyze_valid_iff_catalog ⟨b, hb⟩

theorem analyze_shape_nat (b : Nat) (hb : b < 256)
    (hv : (Parser.analyze_header b).header_valid = true) :
    (Parser.analyze_header b).payload_length ≤ 32
    ∧ (0 < (Parser.analyze_header b).payload_length →
        (b &&& 0x07 = Magics.CMD.SELECT
           ∧ (Parser.analyze_header b).payload_length = 1)
        ∨ b &&& 0x07 = Magics.CMD.WRITE)
    ∧ ((Parser.analyze_header b).payload_length = 0 →
        b &&& 0xc7 = (Magics.SYS.SYS_BASE ||| Magics.SYS.ACK)
        ∨ b &&& 0xc7 = (Magics.SYS.SYS_BASE ||| Magics.SYS.NACK)) :=
  analyze_accepted_shape ⟨b, hb⟩ hv

theorem update_res_invalid_iff (p : Parser) (b : Nat)
    (hst : p.current_state = State.WAIT_HEADER) :
    ((p.update b).2.res = ParseResult.RECEIVED_INVALID_HEADER
      ↔ (Parser.analyze_header b).header_valid = false) := by
  by_cases hv : (Parser.analyze_header b).header_valid = true
  · by_cases hpl : 0 < (Parser.analyze_header b).payload_length
    · rw [update_header_cmd p b hst hv hpl]
      simp [hv]
    · rw [update_header_sys p b hst hv (by omega)]
      simp only
      split_ifs <;> simp [hv]
  · rw [update_header_invalid p b hst (by simpa using hv)]
    simpa using hv

theorem update_terminal_state (p : Parser) (b : Nat)
    (hterm : (p.update b).2.res ≠ ParseResult.INSUFFICIENT_DATA) :
    (p.update b).1.current_state = State.WAIT_HEADER := by
  cases hcs : p.current_state with
  | zero =>
    by_cases hv : (Parser.analyze_header b).header_valid = true
    · by_cases hpl : 0 < (Parser.analyze_header b).payload_length
      · rw [update_header_cmd p b hcs hv hpl] at hterm
        simp at hterm
      · rw [update_header_sys p b hcs hv (by omega)]
        simpa [State.WAIT_HEADER] using hcs
    · rw [update_header_invalid p b hcs (by simpa using hv)]
      simpa [State.WAIT_HEADER] using hcs
  | succ n =>
    cases n with
    | zero =>
      by_cases hz : (p.message_pending_bytes + 255) % 256 = 0
      · rw [update_checksum_fin p b hcs hz]
      · rw [update_checksum_mid p b hcs hz] at hterm
        simp at hterm
    | succ m =>
      have huo : p.update b
          = (p, { res := ParseResult.INSUFFICIENT_DATA,
                  hdr := p.buffer.getD 0 0, len := 0 }) := by
        unfold Parser.update
        rw [hcs]
        rfl
      rw [huo] at hterm
      simp at hterm

/-- Claim C1: in `WAITING_FOR_HEADER`, `update b` returns an outcome
other than `RECEIVED_INVALID_HEADER` exactly when the byte `b` is in
the header catalog (SYS|ACK or SYS|NACK with length code 0, CMD|SELECT
with length code 0, CMD|WRITE with length code 0..5); every other byte
yields `RECEIVED_INVALID_HEADER`. -/
theorem C1_header_catalog (p : Parser) (b : Nat)
    (hst : p.current_state = State.WAIT_HEADER) (hb : b < 256) :
    ((p.update b).2.res ≠ ParseResult.RECEIVED_INVALID_HEADER ↔ headerCatalog b) := by
  constructor
  · intro hne
    refine (analyze_valid_iff_catalog_nat b hb).1 ?_
    by_contra hvf
    exact hne ((update_res_invalid_iff p b hst).2 (by simpa using hvf))
  · intro hcat hres
    have hv := (analyze_valid_iff_catalog_nat b hb).2 hcat
    have := (update_res_invalid_iff p b hst).1 hres
    rw [hv] at this
    cases this

/-- Witness for C1 at a concrete input: a fresh parser and byte 0x00
(not in the catalog). -/
theorem C1_header_catalog_witness :
    ((Parser.init.update 0).2.res ≠ ParseResult.RECEIVED_INVALID_HEADER
      ↔ headerCatalog 0) :=
  C1_header_catalog Parser.init 0 rfl (by decide)

/-- Claim C5: any call whose outcome is terminal (not
`INSUFFICIENT_DATA`) leaves the parser in `WAITING_FOR_HEADER`, and a
byte outside the header catalog fed right after it yields
`RECEIVED_INVALID_HEADER`. -/
theorem C5_terminal_ready (p : Parser) (b c : Nat)
    (hterm : (p.update b).2.res ≠ ParseResult.INSUFFICIENT_DATA)
    (hc : c < 256) (hcat : ¬ headerCatalog c) :
    (p.update b).1.current_state = State.WAIT_HEADER
    ∧ ((p.update b).1.update c).2.res = ParseResult.RECEIVED_INVALID_HEADER := by
  have hst0 := update_terminal_state p b hterm
  refine ⟨hst0, ?_⟩
  have hv : (Parser.analyze_header c).header_valid = false := by
    by_contra hvf
    exact hcat ((analyze_valid_iff_catalog_nat c hc).1 (by simpa using hvf))
  rw [update_header_invalid _ c hst0 hv]

/-- Witness for C5: a `SYS|NACK` byte (terminal outcome) followed by
the invalid byte 0x00. -/
theorem C5_terminal_ready_witness :
    (Parser.init.update 2).1.current_state = State.WAIT_HEADER
    ∧ ((Parser.init.update 2).1.update 0).2.res
        = ParseResult.RECEIVED_INVALID_HEADER :=
  C5_terminal_ready Parser.init 2 0 (by decide) (by decide) (by decide)

/-- Counterexample to claim C6: the `hdr` field is the byte stored at
buffer index 0, which in `WAITING_FOR_HEADER` is the incoming byte
regardless of validity.  After accepting the valid header 0x04
(SYS|ACK), feeding the invalid byte 0x00 returns
`RECEIVED_INVALID_HEADER` with `hdr = 0x00`, not the most recently
accepted valid header 0x04. -/
theorem C6_hdr_counterexample :
    (Parser.init.update 0x04).2.res = ParseResult.RECEIVED_SYS_ACK
    ∧ ((Parser.init.update 0x04).1.update 0x00).2.res
        = ParseResult.RECEIVED_INVALID_HEADER
    ∧ ((Parser.init.update 0x04).1.update 0x00).2.hdr = 0x00
    ∧ ((Parser.init.update 0x04).1.update 0x00).2.hdr ≠ 0x04 := by
  decide

/-- Claim C6 as amended: the returned `hdr` field always equals the
byte at buffer index 0 after the call; in `WAITING_FOR_HEADER` that is
the input byte itself (stored whether or not it is a valid header),
and in `WAITING_FOR_PAYLOAD_AND_CHECKSUM` (in any reachable state) it
is the previously accepted header byte. -/
theorem C6_hdr_amended (p : Parser) (b : Nat) (hlen : 0 < p.buffer.length) :
    (p.update b).2.hdr = (p.update b).1.buffer.getD 0 0
    ∧ (p.current_state = State.WAIT_HEADER → (p.update b).2.hdr = b)
    ∧ (Reachable p → p.current_state = State.WAIT_CHECKSUM →
        (p.update b).2.hdr = p.buffer.getD 0 0) := by
  refine ⟨?_, ?_, ?_⟩
  · cases hcs : p.current_state with
    | zero =>
      by_cases hv : (Parser.analyze_header b).header_valid = true
      · by_cases hpl : 0 < (Parser.analyze_header b).payload_length
        · rw [update_header_cmd p b hcs hv hpl]
        · rw [update_header_sys p b hcs hv (by omega)]
      · rw [update_header_invalid p b hcs (by simpa using hv)]
    | succ n =>
      cases n with
      | zero =>
        by_cases hz : (p.message_pending_bytes + 255) % 256 = 0
        · rw [update_checksum_fin p b hcs hz]
        · rw [update_checksum_mid p b hcs hz]
      | succ m =>
        have huo : p.update b
            = (p, { res := ParseResult.INSUFFICIENT_DATA,
                    hdr := p.buffer.getD 0 0, len := 0 }) := by
          unfold Parser.update
          rw [hcs]
          rfl
        rw [huo]
  · intro hcs
    have hget : (p.buffer.set 0 b).getD 0 0 = b := by
      simp [List.getD, List.getElem?_set, hlen]
    by_cases hv : (Parser.analyze_header b).header_valid = true
    · by_cases hpl : 0 < (Parser.analyze_header b).payload_length
      · rw [update_header_cmd p b hcs hv hpl]
        exact hget
      · rw [update_header_sys p b hcs hv (by omega)]
        exact hget
    · rw [update_header_invalid p b hcs (by simpa using hv)]
      exact hget
  · intro hr hcs
    have hinv := reachable_inv p hr
    rcases hinv.2 with hst | ⟨_, hp1, hp2, hpl, _⟩
    · rw [hcs] at hst
      cases hst
    · have hwi : p.write_index ≠ 0 := by
        rw [write_index_eq p hp1 hp2 hpl]
        omega
      by_cases hz : (p.message_pending_bytes + 255) % 256 = 0
      · rw [update_checksum_fin p b hcs hz]
        exact getD_zero_set_ne _ _ _ _ hwi
      · rw [update_checksum_mid p b hcs hz]
        exact getD_zero_set_ne _ _ _ _ hwi

/-- Witness for the amended C6: fresh parser, byte 0x05. -/
theorem C6_hdr_amended_witness :
    (Parser.init.update 5).2.hdr = (Parser.init.update 5).1.buffer.getD 0 0
    ∧ (Parser.init.current_state = State.WAIT_HEADER →
        (Parser.init.update 5).2.hdr = 5)
    ∧ (Reachable Parser.init →
        Parser.init.current_state = State.WAIT_CHECKSUM →
        (Parser.init.update 5).2.hdr = Parser.init.buffer.getD 0 0) :=
  C6_hdr_amended Parser.init 5 (by decide)

/-- Claim C8: a valid zero-payload (SYS) header byte in
`WAITING_FOR_HEADER` yields `RECEIVED_SYS_ACK` for the ACK subtype and
`RECEIVED_SYS_NACK` for the NACK subtype in that single byte, and the
parser stays in `WAITING_FOR_HEADER`. -/
theorem C8_sys_single_byte (p : Parser) (b : Nat)
    (hst : p.current_state = State.WAIT_HEADER)
    (hlen : 0 < p.buffer.length) (hb : b < 256)
    (hv : (Parser.analyze_header b).header_valid = true)
    (h0 : (Parser.analyze_header b).payload_length = 0) :
    (p.update b).2 = { res := if b &&& 0xc7 = (Magics.SYS.SYS_BASE ||| Magics.SYS.ACK)
                                then ParseResult.RECEIVED_SYS_ACK
                                else ParseResult.RECEIVED_SYS_NACK,
                       hdr := b, len := 0 }
    ∧ (p.update b).1.current_state = State.WAIT_HEADER := by
  have hsan := (analyze_shape_nat b hb hv).2.2 h0
  have hres : (if (b &&& 0xc7) &&& 0x07 = Magics.SYS.NACK then
                 ParseResult.RECEIVED_SYS_NACK
               else if (b &&& 0xc7) &&& 0x07 = Magics.SYS.ACK then
                 ParseResult.RECEIVED_SYS_ACK
               else ParseResult.INSUFFICIENT_DATA)
      = (if b &&& 0xc7 = (Magics.SYS.SYS_BASE ||| Magics.SYS.ACK)
           then ParseResult.RECEIVED_SYS_ACK
           else ParseResult.RECEIVED_SYS_NACK) := by
    rcases hsan with h4 | h2
    · rw [h4]; decide
    · rw [h2]; decide
  rw [update_header_sys p b hst hv h0]
  refine ⟨?_, by simpa using hst⟩
  have hget : (p.buffer.set 0 b).getD 0 0 = b := by
    simp [List.getD, List.getElem?_set, hlen]
  rw [show ({ res := if (b &&& 0xc7) &&& 0x07 = Magics.SYS.NACK then
                 ParseResult.RECEIVED_SYS_NACK
               else if (b &&& 0xc7) &&& 0x07 = Magics.SYS.ACK then
                 ParseResult.RECEIVED_SYS_ACK
               else ParseResult.INSUFFICIENT_DATA,
              hdr := (p.buffer.set 0 b).getD 0 0, len := 0 } : ParserReturn)
        = ({ res := if (b &&& 0xc7) &&& 0x07 = Magics.SYS.NACK then
                 ParseResult.RECEIVED_SYS_NACK
               else if (b &&& 0xc7) &&& 0x07 = Magics.SYS.ACK then
                 ParseResult.RECEIVED_SYS_ACK
               else ParseResult.INSUFFICIENT_DATA,
              hdr := b, len := 0 } : ParserReturn) from by rw [hget]]
  rw [hres]

/-- Witness for C8: the SYS|ACK byte 0x04 on a fresh parser. -/
theorem C8_sys_single_byte_witness :
    (Parser.init.update 4).2 = { res := if 4 &&& 0xc7 = (Magics.SYS.SYS_BASE ||| Magics.SYS.ACK)
                                          then ParseResult.RECEIVED_SYS_ACK
                                          else ParseResult.RECEIVED_SYS_NACK,
                                 hdr := 4, len := 0 }
    ∧ (Parser.init.update 4).1.current_state = State.WAIT_HEADER :=
  C8_sys_single_byte Parser.init 4 rfl (by decide) (by decide) (by decide) (by decide)

end EV3UartProtocolParserSensorSide

namespace EV3UartProtocolParserSensorSide
open EV3UartGenerator

theorem getD_append_lt (l1 l2 : List Nat) (i d : Nat) (h : i < l1.length) :
    (l1 ++ l2).getD i d = l1.getD i d := by
  simp [List.getD, List.getElem?_append, h]

theorem getD_take_lt (l : List Nat) (i j d : Nat) (h : i < j) :
    (l.take j).getD i d = l.getD i d := by
  simp [List.getD, List.getElem?_take, h]

/-- Claim C2: a well-formed CMD frame (valid CMD header, payload of the
announced length, correct checksum) fed byte-by-byte from
`WAITING_FOR_HEADER` yields `INSUFFICIENT_DATA` on every byte but the
last, and on the last byte yields `RECEIVED_CMD_SELECT` (SELECT
subtype) or `RECEIVED_CMD_WRITE` (WRITE subtype) with `len` equal to
the payload length and the payload view (buffer indices
1..payload_length, as exposed by `data`) equal to the sent payload. -/
theorem C2_wellformed_cmd_frame (p : Parser) (h c : Nat) (ps : List Nat)
    (hst : p.current_state = State.WAIT_HEADER)
    (hlen : p.buffer.length = BUFFER_LEN)
    (hh : h < 256)
    (hv : (Parser.analyze_header h).header_valid = true)
    (hL : (Parser.analyze_header h).payload_length = ps.length)
    (hpos : 0 < ps.length)
    (hc : c = Framing.checksum (h :: ps) (ps.length + 1)) :
    (∀ r ∈ (runBytes p (h :: (ps ++ [c]))).2.dropLast,
        r.res = ParseResult.INSUFFICIENT_DATA)
    ∧ (runBytes p (h :: (ps ++ [c]))).2.getLast?
        = some { res := if h &&& 0x07 = Magics.CMD.SELECT
                          then ParseResult.RECEIVED_CMD_SELECT
                          else ParseResult.RECEIVED_CMD_WRITE,
                 hdr := h, len := ps.length }
    ∧ (runBytes p (h :: (ps ++ [c]))).1.data.take ps.length = ps := by
  have hrun := run_cmd_frame p h c ps hst hlen hh hv hL hpos
  have hshape : (h &&& 0x07 = Magics.CMD.SELECT
        ∧ (Parser.analyze_header h).payload_length = 1)
      ∨ h &&& 0x07 = Magics.CMD.WRITE :=
    (analyze_shape_nat h hh hv).2.1 (by omega)
  refine ⟨?_, ?_, ?_⟩
  · rw [hrun.1]
    intro r hr
    rw [List.dropLast_concat] at hr
    rw [List.eq_of_mem_replicate hr]
  · rw [hrun.1, List.getLast?_concat]
    have hcc : ¬ (Framing.checksum (h :: ps) (ps.length + 1) ≠ c) := by
      rw [hc]
      exact fun hk => hk rfl
    rw [if_neg hcc]
    rcases hshape with ⟨h3, _⟩ | h4
    · rw [h3]
      simp
    · rw [h4]
      simp [Magics.CMD.SELECT, Magics.CMD.WRITE]
  · show ((runBytes p (h :: (ps ++ [c]))).1.buffer.drop 1).take ps.length = ps
    rw [hrun.2.1]
    simp only [List.drop_succ_cons, List.drop_zero]
    simpa using List.take_left ps (c :: p.buffer.tail.drop (ps.length + 1))

/-- Witness for C2: fresh parser, frame 0x43 (CMD|SELECT), payload
[0x07], checksum 0xbb. -/
theorem C2_wellformed_cmd_frame_witness :
    (∀ r ∈ (runBytes Parser.init (0x43 :: ([0x07] ++ [0xbb]))).2.dropLast,
        r.res = ParseResult.INSUFFICIENT_DATA)
    ∧ (runBytes Parser.init (0x43 :: ([0x07] ++ [0xbb]))).2.getLast?
        = some { res := if 0x43 &&& 0x07 = Magics.CMD.SELECT
                          then ParseResult.RECEIVED_CMD_SELECT
                          else ParseResult.RECEIVED_CMD_WRITE,
                 hdr := 0x43, len := [(0x07 : Nat)].length }
    ∧ (runBytes Parser.init (0x43 :: ([0x07] ++ [0xbb]))).1.data.take
        [(0x07 : Nat)].length = [0x07] :=
  C2_wellformed_cmd_frame Parser.init 0x43 0xbb [0x07] rfl rfl (by decide)
    (by decide) (by decide) (by decide) (by decide)

/-- Claim C3: replacing only the checksum byte of a well-formed CMD
frame by a different byte changes the final outcome to
`RECEIVED_CMD_INVALID_FCS` while the returned `len` and the payload
view stay the same as in the uncorrupted run. -/
theorem C3_corrupted_fcs (p : Parser) (h c : Nat) (ps : List Nat)
    (hst : p.current_state = State.WAIT_HEADER)
    (hlen : p.buffer.length = BUFFER_LEN)
    (hh : h < 256)
    (hv : (Parser.analyze_header h).header_valid = true)
    (hL : (Parser.analyze_header h).payload_length = ps.length)
    (hpos : 0 < ps.length)
    (hcb : c < 256)
    (hc : c ≠ Framing.checksum (h :: ps) (ps.length + 1)) :
    (runBytes p (h :: (ps ++ [c]))).2.getLast?
      = some { res := ParseResult.RECEIVED_CMD_INVALID_FCS,
               hdr := h, len := ps.length }
    ∧ (runBytes p
          (h :: (ps ++ [Framing.checksum (h :: ps) (ps.length + 1)]))).2.getLast?
        = some { res := if h &&& 0x07 = Magics.CMD.SELECT
                          then ParseResult.RECEIVED_CMD_SELECT
                          else ParseResult.RECEIVED_CMD_WRITE,
                 hdr := h, len := ps.length }
    ∧ (runBytes p (h :: (ps ++ [c]))).1.data.take ps.length
        = (runBytes p
            (h :: (ps ++ [Framing.checksum (h :: ps) (ps.length + 1)]))).1.data.take
            ps.length := by
  have hrun := run_cmd_frame p h c ps hst hlen hh hv hL hpos
  have hrun' := run_cmd_frame p h (Framing.checksum (h :: ps) (ps.length + 1)) ps
    hst hlen hh hv hL hpos
  have hshape : (h &&& 0x07 = Magics.CMD.SELECT
        ∧ (Parser.analyze_header h).payload_length = 1)
      ∨ h &&& 0x07 = Magics.CMD.WRITE :=
    (analyze_shape_nat h hh hv).2.1 (by omega)
  have hview : (runBytes p (h :: (ps ++ [c]))).1.data.take ps.length = ps := by
    show ((runBytes p (h :: (ps ++ [c]))).1.buffer.drop 1).take ps.length = ps
    rw [hrun.2.1]
    simp only [List.drop_succ_cons, List.drop_zero]
    simpa using List.take_left ps (c :: p.buffer.tail.drop (ps.length + 1))
  have hview' : (runBytes p
      (h :: (ps ++ [Framing.checksum (h :: ps) (ps.length + 1)]))).1.data.take
        ps.length = ps := by
    show ((runBytes p
        (h :: (ps ++ [Framing.checksum (h :: ps) (ps.length + 1)]))).1.buffer.drop 1).take
          ps.length = ps
    rw [hrun'.2.1]
    simp only [List.drop_succ_cons, List.drop_zero]
    simpa using List.take_left ps
      (Framing.checksum (h :: ps) (ps.length + 1)
        :: p.buffer.tail.drop (ps.length + 1))
  refine ⟨?_, ?_, ?_⟩
  · rw [hrun.1, List.getLast?_concat]
    rw [if_pos (fun hk => hc hk.symm)]
  · rw [hrun'.1, List.getLast?_concat]
    have hcc : ¬ (Framing.checksum (h :: ps) (ps.length + 1)
        ≠ Framing.checksum (h :: ps) (ps.length + 1)) := fun hk => hk rfl
    rw [if_neg hcc]
    rcases hshape with ⟨h3, _⟩ | h4
    · rw [h3]
      simp
    · rw [h4]
      simp [Magics.CMD.SELECT, Magics.CMD.WRITE]
  · rw [hview, hview']

/-- Witness for C3: frame 0x43 [0x07] with corrupted checksum 0x00
against the correct 0xbb. -/
theorem C3_corrupted_fcs_witness :
    (runBytes Parser.init (0x43 :: ([0x07] ++ [0x00]))).2.getLast?
      = some { res := ParseResult.RECEIVED_CMD_INVALID_FCS,
               hdr := 0x43, len := [(0x07 : Nat)].length }
    ∧ (runBytes Parser.init
          (0x43 :: ([0x07] ++ [Framing.checksum (0x43 :: [0x07]) ([(0x07 : Nat)].length + 1)]))).2.getLast?
        = some { res := if 0x43 &&& 0x07 = Magics.CMD.SELECT
                          then ParseResult.RECEIVED_CMD_SELECT
                          else ParseResult.RECEIVED_CMD_WRITE,
                 hdr := 0x43, len := [(0x07 : Nat)].length }
    ∧ (runBytes Parser.init (0x43 :: ([0x07] ++ [0x00]))).1.data.take
        [(0x07 : Nat)].length
        = (runBytes Parser.init
            (0x43 :: ([0x07] ++ [Framing.checksum (0x43 :: [0x07]) ([(0x07 : Nat)].length + 1)]))).1.data.take
            [(0x07 : Nat)].length :=
  C3_corrupted_fcs Parser.init 0x43 0x00 [0x07] rfl rfl (by decide) (by decide)
    (by decide) (by decide) (by decide) (by decide)

end EV3UartProtocolParserSensorSide

namespace EV3UartProtocolParserSensorSide
open EV3UartGenerator

/-- Claim C4: after a CMD header announcing payload length N, the i-th
byte consumed (i = 1..N+1) is written at buffer index i — after the
first j such bytes the buffer holds them contiguously from index 1 —
and the final outcome is `RECEIVED_CMD_INVALID_FCS` exactly when the
checksum computed over buffer indices 0..N differs from the byte at
buffer index N+1. -/
theorem C4_buffer_layout (p : Parser) (h : Nat) (bs : List Nat)
    (hst : p.current_state = State.WAIT_HEADER)
    (hlen : p.buffer.length = BUFFER_LEN)
    (hh : h < 256)
    (hv : (Parser.analyze_header h).header_valid = true)
    (hpos : 0 < (Parser.analyze_header h).payload_length)
    (hbs : bs.length = (Parser.analyze_header h).payload_length + 1) :
    (∀ j, j ≤ bs.length → ∀ i, i < j →
      ((runBytes (p.update h).1 (bs.take j)).1).buffer.getD (i + 1) 0
        = bs.getD i 0)
    ∧ ((runBytes (p.update h).1 bs).2.getLast?.map ParserReturn.res
          = some ParseResult.RECEIVED_CMD_INVALID_FCS
        ↔ Framing.checksum ((runBytes (p.update h).1 bs).1.buffer)
              ((Parser.analyze_header h).payload_length + 1)
            ≠ ((runBytes (p.update h).1 bs).1.buffer.getD
                ((Parser.analyze_header h).payload_length + 1) 0)) := by
  have hL32 : (Parser.analyze_header h).payload_length ≤ 32 :=
    (analyze_shape_nat h hh hv).1
  have hne : bs ≠ [] := by
    intro hq
    rw [hq] at hbs
    simp at hbs
  have hsplit : bs.dropLast ++ [bs.getLast hne] = bs :=
    List.dropLast_append_getLast hne
  have hpslen : bs.dropLast.length = (Parser.analyze_header h).payload_length := by
    have := List.length_dropLast bs
    omega
  cases hbufeq : p.buffer with
  | nil => rw [hbufeq] at hlen; simp [BUFFER_LEN, Framing.BUFFER_MIN] at hlen
  | cons b0 t =>
  have htlen : t.length = 33 := by
    rw [hbufeq] at hlen
    simp [BUFFER_LEN, Framing.BUFFER_MIN] at hlen
    omega
  have hchar := update_header_cmd p h hst hv hpos
  have hmod : ((Parser.analyze_header h).payload_length + 1) % 256
      = (Parser.analyze_header h).payload_length + 1 := Nat.mod_eq_of_lt (by omega)
  have hrun := run_cmd_frame p h (bs.getLast hne) bs.dropLast hst hlen hh hv
    (by rw [hpslen]) (by omega)
  have hstep : runBytes p (h :: (bs.dropLast ++ [bs.getLast hne]))
      = ((runBytes (p.update h).1 (bs.dropLast ++ [bs.getLast hne])).1,
         (p.update h).2
           :: (runBytes (p.update h).1 (bs.dropLast ++ [bs.getLast hne])).2) := by
    simp [runBytes]
  have hout := hrun.1
  have hbuf := hrun.2.1
  rw [hstep] at hout hbuf
  rw [hsplit] at hout hbuf
  constructor
  · intro j hj i hij
    by_cases hjN : j ≤ (Parser.analyze_header h).payload_length
    · have hpay := run_payload (bs.take j) (p.update h).1 h [] t
        (by rw [hchar]) (by rw [hchar]; simp [hbufeq])
        (by rw [hchar]; simp [hmod])
        (by rw [hchar]; simp only; rw [hmod]; simp; omega)
        (by rw [hchar]; simp only; rw [hmod])
        (by rw [hchar]; simp only; omega)
        (by simp [htlen]; omega)
      rw [hpay.1]
      simp only [List.nil_append, List.getD_cons_succ]
      rw [getD_append_lt _ _ i 0 (by simp; omega)]
      exact getD_take_lt bs i j 0 hij
    · have hjeq : j = bs.length := by omega
      rw [hjeq, List.take_length]
      rw [hbuf, List.getD_cons_succ]
      rcases Nat.lt_or_ge i bs.dropLast.length with hiN | hiN
      · rw [getD_append_lt _ _ i 0 hiN]
        conv_rhs => rw [← hsplit]
        rw [getD_append_lt _ _ i 0 hiN]
      · have hieq : i = bs.dropLast.length := by
          have := List.length_dropLast bs
          omega
        rw [hieq]
        rw [getD_append_len]
        rw [show bs.getD bs.dropLast.length 0
              = (bs.dropLast ++ [bs.getLast hne]).getD bs.dropLast.length 0 from by
            rw [hsplit]]
        rw [getD_append_len]
  · have hout' : (p.update h).2 :: (runBytes (p.update h).1 bs).2
        = List.replicate (bs.dropLast.length + 1)
            { res := ParseResult.INSUFFICIENT_DATA, hdr := h, len := 0 }
          ++ [{ res := if Framing.checksum (h :: bs.dropLast)
                          (bs.dropLast.length + 1) ≠ bs.getLast hne then
                         ParseResult.RECEIVED_CMD_INVALID_FCS
                       else if h &&& 0x07 = Magics.CMD.SELECT then
                         ParseResult.RECEIVED_CMD_SELECT
                       else if h &&& 0x07 = Magics.CMD.WRITE then
                         ParseResult.RECEIVED_CMD_WRITE
                       else ParseResult.INSUFFICIENT_DATA,
                hdr := h, len := bs.dropLast.length }] := hout
    have houts2 : (runBytes (p.update h).1 bs).2
        = List.replicate bs.dropLast.length
            { res := ParseResult.INSUFFICIENT_DATA, hdr := h, len := 0 }
          ++ [{ res := if Framing.checksum (h :: bs.dropLast)
                          (bs.dropLast.length + 1) ≠ bs.getLast hne then
                         ParseResult.RECEIVED_CMD_INVALID_FCS
                       else if h &&& 0x07 = Magics.CMD.SELECT then
                         ParseResult.RECEIVED_CMD_SELECT
                       else if h &&& 0x07 = Magics.CMD.WRITE then
                         ParseResult.RECEIVED_CMD_WRITE
                       else ParseResult.INSUFFICIENT_DATA,
                hdr := h, len := bs.dropLast.length }] := by
      have hc2 := congrArg List.tail hout'
      simp only [List.replicate_succ, List.cons_append, List.tail_cons] at hc2
      exact hc2
    have hbufeq2 := hbuf
    have hchk2 : Framing.checksum ((runBytes (p.update h).1 bs).1.buffer)
        (bs.dropLast.length + 1)
        = Framing.checksum (h :: bs.dropLast) (bs.dropLast.length + 1) := by
      rw [hbufeq2]
      simp only [Framing.checksum]
      congr 1
      rw [show (h :: (bs.dropLast ++ bs.getLast hne
            :: p.buffer.tail.drop (bs.dropLast.length + 1))).take
              (bs.dropLast.length + 1)
          = h :: ((bs.dropLast ++ bs.getLast hne
            :: p.buffer.tail.drop (bs.dropLast.length + 1)).take
              bs.dropLast.length) from rfl]
      rw [show (h :: bs.dropLast).take (bs.dropLast.length + 1)
            = h :: bs.dropLast.take bs.dropLast.length from rfl]
      rw [List.take_length, List.take_left]
    have hgetc : ((runBytes (p.update h).1 bs).1.buffer).getD
        (bs.dropLast.length + 1) 0 = bs.getLast hne := by
      rw [hbufeq2, List.getD_cons_succ, getD_append_len]
    rw [← hpslen]
    rw [houts2, List.getLast?_concat]
    simp only [Option.map_some']
    rw [hchk2, hgetc]
    by_cases hk : Framing.checksum (h :: bs.dropLast) (bs.dropLast.length + 1)
        = bs.getLast hne
    · rw [if_neg (fun hx => hx hk)]
      constructor
      · intro hres
        exfalso
        split_ifs at hres <;> simp at hres
      · intro hrhs
        exact absurd hk hrhs
    · rw [if_pos hk]
      exact iff_of_true rfl hk

end EV3UartProtocolParserSensorSide

namespace EV3UartProtocolParserSensorSide
open EV3UartGenerator

/-- Witness for C4: fresh parser, CMD|SELECT header 0x43, payload and
checksum bytes [0x07, 0xbb]. -/
theorem C4_buffer_layout_witness :
    (∀ j, j ≤ [(0x07 : Nat), 0xbb].length → ∀ i, i < j →
      ((runBytes (Parser.init.update 0x43).1 ([(0x07 : Nat), 0xbb].take j)).1).buffer.getD
          (i + 1) 0
        = [(0x07 : Nat), 0xbb].getD i 0)
    ∧ ((runBytes (Parser.init.update 0x43).1 [(0x07 : Nat), 0xbb]).2.getLast?.map
          ParserReturn.res
          = some ParseResult.RECEIVED_CMD_INVALID_FCS
        ↔ Framing.checksum
              ((runBytes (Parser.init.update 0x43).1 [(0x07 : Nat), 0xbb]).1.buffer)
              ((Parser.analyze_header 0x43).payload_length + 1)
            ≠ ((runBytes (Parser.init.update 0x43).1 [(0x07 : Nat), 0xbb]).1.buffer.getD
                ((Parser.analyze_header 0x43).payload_length + 1) 0)) :=
  C4_buffer_layout Parser.init 0x43 [0x07, 0xbb] rfl rfl (by decide) (by decide)
    (by decide) (by decide)

theorem set_zero_take_one (l : List Nat) (a : Nat) (h : 0 < l.length) :
    (l.set 0 a).take 1 = [a] := by
  cases l with
  | nil => simp at h
  | cons x xs => rfl

/-- Claim C7: abandoning a partially received CMD frame with
`reset_state` and then feeding any complete well-formed frame yields
exactly the same sequence of results, and the same frame bytes in the
buffer (hence the same payload view), as feeding that frame to a
freshly constructed parser. -/
theorem C7_reset_no_residue (h0 : Nat) (ps0 : List Nat) (bs : List Nat)
    (hh0 : h0 < 256)
    (hv0 : (Parser.analyze_header h0).header_valid = true)
    (hpart : ps0.length < (Parser.analyze_header h0).payload_length)
    (hwf : WellFormedFrame bs) :
    (runBytes ((runBytes Parser.init (h0 :: ps0)).1.reset_state) bs).2
      = (runBytes Parser.init bs).2
    ∧ (runBytes ((runBytes Parser.init (h0 :: ps0)).1.reset_state) bs).1.buffer.take
        bs.length
      = (runBytes Parser.init bs).1.buffer.take bs.length := by
  have hqst : ((runBytes Parser.init (h0 :: ps0)).1.reset_state).current_state
      = State.WAIT_HEADER := rfl
  have hqlen : ((runBytes Parser.init (h0 :: ps0)).1.reset_state).buffer.length
      = BUFFER_LEN := by
    show (runBytes Parser.init (h0 :: ps0)).1.buffer.length = BUFFER_LEN
    rw [runBytes_buffer_length]
    rfl
  have hqpos : 0 < ((runBytes Parser.init (h0 :: ps0)).1.reset_state).buffer.length := by
    rw [hqlen]
    decide
  rcases hwf with ⟨s, hbs, hsb, hsv, hs0⟩ | ⟨h, ps, hbs, hh, hv, hL, hpos⟩
  · subst hbs
    have e1 := update_header_sys _ s hqst hsv hs0
    have e2 := update_header_sys Parser.init s rfl hsv hs0
    have g1 : (((runBytes Parser.init (h0 :: ps0)).1.reset_state).buffer.set 0 s).getD 0 0
        = s := by
      simp [List.getD, List.getElem?_set, hqpos]
    have hip : 0 < Parser.init.buffer.length := by decide
    have g2 : (Parser.init.buffer.set 0 s).getD 0 0 = s := by
      simp [List.getD, List.getElem?_set, hip]
    constructor
    · show [((((runBytes Parser.init (h0 :: ps0)).1.reset_state)).update s).2]
        = [(Parser.init.update s).2]
      rw [e1, e2]
      simp only [g1, g2]
    · show ((((runBytes Parser.init (h0 :: ps0)).1.reset_state).update s).1.buffer).take 1
        = ((Parser.init.update s).1.buffer).take 1
      rw [e1, e2]
      simp only
      rw [set_zero_take_one _ _ hqpos, set_zero_take_one _ _ (by decide)]
  · subst hbs
    have r1 := run_cmd_frame ((runBytes Parser.init (h0 :: ps0)).1.reset_state) h
      (Framing.checksum (h :: ps) (ps.length + 1)) ps hqst hqlen hh hv hL hpos
    have r2 := run_cmd_frame Parser.init h
      (Framing.checksum (h :: ps) (ps.length + 1)) ps rfl rfl hh hv hL hpos
    refine ⟨by rw [r1.1, r2.1], ?_⟩
    rw [r1.2.1, r2.2.1]
    have htake : ∀ (X : List Nat),
        (h :: (ps ++ Framing.checksum (h :: ps) (ps.length + 1) :: X)).take
            ((h :: (ps ++ [Framing.checksum (h :: ps) (ps.length + 1)])).length)
          = h :: (ps ++ [Framing.checksum (h :: ps) (ps.length + 1)]) := by
      intro X
      have hlen2 : (h :: (ps ++ [Framing.checksum (h :: ps) (ps.length + 1)])).length
          = ps.length + 1 + 1 := by simp
      rw [hlen2]
      rw [show (h :: (ps ++ Framing.checksum (h :: ps) (ps.length + 1) :: X)).take
            (ps.length + 1 + 1)
          = h :: ((ps ++ Framing.checksum (h :: ps) (ps.length + 1) :: X).take
            (ps.length + 1)) from rfl]
      simp [List.take_append]
    rw [htake, htake]

/-- Witness for C7: abandon a CMD|WRITE frame (header 0x4c, one of two
payload bytes fed), reset, then feed the SELECT frame 0x43 0x07 0xbb. -/
theorem C7_reset_no_residue_witness :
    (runBytes ((runBytes Parser.init (0x4c :: [0x09])).1.reset_state)
        (0x43 :: ([0x07] ++ [Framing.checksum (0x43 :: [0x07]) ([(0x07 : Nat)].length + 1)]))).2
      = (runBytes Parser.init
          (0x43 :: ([0x07] ++ [Framing.checksum (0x43 :: [0x07]) ([(0x07 : Nat)].length + 1)]))).2
    ∧ (runBytes ((runBytes Parser.init (0x4c :: [0x09])).1.reset_state)
          (0x43 :: ([0x07] ++ [Framing.checksum (0x43 :: [0x07]) ([(0x07 : Nat)].length + 1)]))).1.buffer.take
        (0x43 :: ([0x07] ++ [Framing.checksum (0x43 :: [0x07]) ([(0x07 : Nat)].length + 1)])).length
      = (runBytes Parser.init
          (0x43 :: ([0x07] ++ [Framing.checksum (0x43 :: [0x07]) ([(0x07 : Nat)].length + 1)]))).1.buffer.take
        (0x43 :: ([0x07] ++ [Framing.checksum (0x43 :: [0x07]) ([(0x07 : Nat)].length + 1)])).length :=
  C7_reset_no_residue 0x4c [0x09]
    (0x43 :: ([0x07] ++ [Framing.checksum (0x43 :: [0x07]) ([(0x07 : Nat)].length + 1)]))
    (by decide) (by decide) (by decide)
    (Or.inr ⟨0x43, [0x07], rfl, by decide, by decide, by decide, by decide⟩)

end EV3UartProtocolParserSensorSide

namespace EV3UartProtocolParserSensorSide
open EV3UartGenerator

/-- Claim C9: the unguarded subtype dispatches never fall through in
any reachable state.  `INSUFFICIENT_DATA` (the zero-initialised
default of the result field) is returned exactly when the parser ends
the call still waiting for more frame bytes; when the SYS dispatch
runs (valid zero-payload header) the result is one of the two SYS
outcomes; and when the CMD dispatch runs after a checksum match the
result is one of the two CMD outcomes. -/
theorem C9_no_switch_fallthrough (p : Parser) (b : Nat)
    (hr : Reachable p) (hb : b < 256) :
    ((p.update b).2.res = ParseResult.INSUFFICIENT_DATA
        ↔ (p.update b).1.current_state = State.WAIT_CHECKSUM)
    ∧ (p.current_state = State.WAIT_HEADER →
        (Parser.analyze_header b).header_valid = true →
        (Parser.analyze_header b).payload_length = 0 →
          (p.update b).2.res = ParseResult.RECEIVED_SYS_ACK
          ∨ (p.update b).2.res = ParseResult.RECEIVED_SYS_NACK)
    ∧ (p.current_state = State.WAIT_CHECKSUM →
        (p.update b).2.res ≠ ParseResult.INSUFFICIENT_DATA →
        (p.update b).2.res ≠ ParseResult.RECEIVED_CMD_INVALID_FCS →
          (p.update b).2.res = ParseResult.RECEIVED_CMD_SELECT
          ∨ (p.update b).2.res = ParseResult.RECEIVED_CMD_WRITE) := by
  have hinv := reachable_inv p hr
  obtain ⟨hlen34, hstate⟩ := hinv
  refine ⟨?_, ?_, ?_⟩
  · rcases hstate with hst | ⟨hst, h1, h2, h3, hsub⟩
    · by_cases hv : (Parser.analyze_header b).header_valid = true
      · by_cases hpl : 0 < (Parser.analyze_header b).payload_length
        · rw [update_header_cmd p b hst hv hpl]
          simp
        · rw [update_header_sys p b hst hv (by omega)]
          have hsan := (analyze_shape_nat b hb hv).2.2 (by omega)
          apply iff_of_false
          · show ¬ (if (b &&& 0xc7) &&& 0x07 = Magics.SYS.NACK then
                ParseResult.RECEIVED_SYS_NACK
              else if (b &&& 0xc7) &&& 0x07 = Magics.SYS.ACK then
                ParseResult.RECEIVED_SYS_ACK
              else ParseResult.INSUFFICIENT_DATA) = ParseResult.INSUFFICIENT_DATA
            rcases hsan with h4 | h2
            · rw [h4]; decide
            · rw [h2]; decide
          · show ¬ p.current_state = State.WAIT_CHECKSUM
            rw [hst]; decide
      · rw [update_header_invalid p b hst (by simpa using hv)]
        apply iff_of_false
        · show ¬ ParseResult.RECEIVED_INVALID_HEADER = ParseResult.INSUFFICIENT_DATA
          decide
        · show ¬ p.current_state = State.WAIT_CHECKSUM
          rw [hst]; decide
    · by_cases hz : (p.message_pending_bytes + 255) % 256 = 0
      · rw [update_checksum_fin p b hst hz]
        have hwi : p.write_index ≠ 0 := by
          rw [write_index_eq p h1 h2 h3]; omega
        have hg : (p.buffer.set p.write_index b).getD 0 0 = p.buffer.getD 0 0 :=
          getD_zero_set_ne _ _ _ _ hwi
        apply iff_of_false
        · show ¬ (if Framing.checksum (p.buffer.set p.write_index b)
                (p.message_payload_length + 1)
              ≠ (p.buffer.set p.write_index b).getD p.write_index 0 then
              ParseResult.RECEIVED_CMD_INVALID_FCS
            else if (p.buffer.set p.write_index b).getD 0 0 &&& 0x07
                = Magics.CMD.SELECT then
              ParseResult.RECEIVED_CMD_SELECT
            else if (p.buffer.set p.write_index b).getD 0 0 &&& 0x07
                = Magics.CMD.WRITE then
              ParseResult.RECEIVED_CMD_WRITE
            else ParseResult.INSUFFICIENT_DATA) = ParseResult.INSUFFICIENT_DATA
          intro hres
          rw [hg] at hres
          split_ifs at hres with hk h5 h6
          all_goals try exact absurd hres (by decide)
          rcases hsub with hs | hs
          · exact h5 hs
          · exact h6 hs
        · show ¬ State.WAIT_HEADER = State.WAIT_CHECKSUM
          decide
      · rw [update_checksum_mid p b hst hz]
        exact iff_of_true rfl hst
  · intro hst hv hpl0
    rw [update_header_sys p b hst hv hpl0]
    have hsan := (analyze_shape_nat b hb hv).2.2 hpl0
    show (if (b &&& 0xc7) &&& 0x07 = Magics.SYS.NACK then
            ParseResult.RECEIVED_SYS_NACK
          else if (b &&& 0xc7) &&& 0x07 = Magics.SYS.ACK then
            ParseResult.RECEIVED_SYS_ACK
          else ParseResult.INSUFFICIENT_DATA) = ParseResult.RECEIVED_SYS_ACK
      ∨ (if (b &&& 0xc7) &&& 0x07 = Magics.SYS.NACK then
            ParseResult.RECEIVED_SYS_NACK
          else if (b &&& 0xc7) &&& 0x07 = Magics.SYS.ACK then
            ParseResult.RECEIVED_SYS_ACK
          else ParseResult.INSUFFICIENT_DATA) = ParseResult.RECEIVED_SYS_NACK
    rcases hsan with h4 | h2
    · left; rw [h4]; decide
    · right; rw [h2]; decide
  · intro hst hterm hne
    rcases hstate with hst0 | ⟨_, h1, h2, h3, hsub⟩
    · rw [hst0] at hst
      exact absurd hst (by decide)
    · by_cases hz : (p.message_pending_bytes + 255) % 256 = 0
      · rw [update_checksum_fin p b hst hz] at hne ⊢
        have hwi : p.write_index ≠ 0 := by
          rw [write_index_eq p h1 h2 h3]; omega
        have hg : (p.buffer.set p.write_index b).getD 0 0 = p.buffer.getD 0 0 :=
          getD_zero_set_ne _ _ _ _ hwi
        rw [hg] at hne ⊢
        split_ifs at hne ⊢ with hk h5 h6
        · exact absurd rfl hne
        · left; rfl
        · right; rfl
        · rcases hsub with hs | hs
          · exact absurd hs h5
          · exact absurd hs h6
      · rw [update_checksum_mid p b hst hz] at hterm
        exact absurd rfl hterm

/-- Witness for C9: the freshly constructed parser and byte 0x04. -/
theorem C9_no_switch_fallthrough_witness :
    ((Parser.init.update 4).2.res = ParseResult.INSUFFICIENT_DATA
        ↔ (Parser.init.update 4).1.current_state = State.WAIT_CHECKSUM)
    ∧ (Parser.init.current_state = State.WAIT_HEADER →
        (Parser.analyze_header 4).header_valid = true →
        (Parser.analyze_header 4).payload_length = 0 →
          (Parser.init.update 4).2.res = ParseResult.RECEIVED_SYS_ACK
          ∨ (Parser.init.update 4).2.res = ParseResult.RECEIVED_SYS_NACK)
    ∧ (Parser.init.current_state = State.WAIT_CHECKSUM →
        (Parser.init.update 4).2.res ≠ ParseResult.INSUFFICIENT_DATA →
        (Parser.init.update 4).2.res ≠ ParseResult.RECEIVED_CMD_INVALID_FCS →
          (Parser.init.update 4).2.res = ParseResult.RECEIVED_CMD_SELECT
          ∨ (Parser.init.update 4).2.res = ParseResult.RECEIVED_CMD_WRITE) :=
  C9_no_switch_fallthrough Parser.init 4 Reachable.init (by decide)

/-- Claim C10: in every reachable state the buffer keeps its 34-byte
capacity, and while waiting for payload/checksum bytes the pending
count lies in [1, payload_length+1], so the write index lies in
[1, payload_length+1] ⊆ [1, 33], strictly below `BUFFER_LEN`; all
buffer accesses of `update` stay in bounds. -/
theorem C10_buffer_index_bounds (p : Parser) (hr : Reachable p) :
    p.buffer.length = BUFFER_LEN
    ∧ (p.current_state = State.WAIT_CHECKSUM →
        1 ≤ p.message_pending_bytes
        ∧ p.message_pending_bytes ≤ p.message_payload_length + 1
        ∧ 1 ≤ p.write_index
        ∧ p.write_index ≤ p.message_payload_length + 1
        ∧ p.message_payload_length + 1 ≤ 33
        ∧ p.write_index < BUFFER_LEN) := by
  have hinv := reachable_inv p hr
  refine ⟨hinv.1, ?_⟩
  intro hst
  rcases hinv.2 with hst0 | ⟨_, h1, h2, h3, _⟩
  · rw [hst0] at hst
    exact absurd hst (by decide)
  · have hwi := write_index_eq p h1 h2 h3
    have hbl : BUFFER_LEN = 34 := rfl
    refine ⟨h1, h2, ?_, ?_, by omega, ?_⟩
    · rw [hwi]; omega
    · rw [hwi]; omega
    · rw [hwi]; omega

/-- Witness for C10: the freshly constructed parser. -/
theorem C10_buffer_index_bounds_witness :
    Parser.init.buffer.length = BUFFER_LEN
    ∧ (Parser.init.current_state = State.WAIT_CHECKSUM →
        1 ≤ Parser.init.message_pending_bytes
        ∧ Parser.init.message_pending_bytes
            ≤ Parser.init.message_payload_length + 1
        ∧ 1 ≤ Parser.init.write_index
        ∧ Parser.init.write_index ≤ Parser.init.message_payload_length + 1
        ∧ Parser.init.message_payload_length + 1 ≤ 33
        ∧ Parser.init.write_index < BUFFER_LEN) :=
  C10_buffer_index_bounds Parser.init Reachable.init

end EV3UartProtocolParserSensorSide
